import Mathlib

/-!
Shallow embedding of the GradCafe scrape-and-clean pipeline from the
repository (src/module_2/clean.py, src/module_2/scrape.py,
src/module_4/src/scrape.py, src/module_5/src/clean.py), together with
theorems settling the frozen claims about it.

Modelling conventions:
- Python strings are Lean `String` (lists of characters); regular
  expression classes are modelled at ASCII level, which covers every
  string the repository manipulates.
- The BeautifulSoup HTML observations the code makes (tables, rows,
  cells, anchors, definition lists) are modelled as abstract page
  structures supplied by an environment; the regex work and all control
  flow are translated directly from the source.
- Fallible HTTP fetches are environment functions returning `Option`.
-/

/-! ## Character classes (ASCII model of the Python regex classes) -/

/-- Python whitespace, as matched by the regex class for spaces and by
str.split: space, tab, newline, carriage return, vertical tab, form feed. -/
def isPySpace (c : Char) : Bool :=
  c = ' ' || c = '\t' || c = '\n' || c = '\r' || c = Char.ofNat 11 || c = Char.ofNat 12

/-- Regex digit class (ASCII). -/
def isAsciiDigit (c : Char) : Bool :=
  '0' ≤ c && c ≤ '9'

/-- The character class of digits and dots used by the GPA/AW patterns. -/
def isDigitDot (c : Char) : Bool :=
  isAsciiDigit c || c = '.'

/-- Regex word-character class (ASCII). -/
def isWordChar (c : Char) : Bool :=
  ('a' ≤ c && c ≤ 'z') || ('A' ≤ c && c ≤ 'Z') || isAsciiDigit c || c = '_'

/-- Lower-casing used to model case-insensitive matching. -/
def lowerChar (c : Char) : Char := c.toLower

/-- Lower-casing of a whole string, the str lower method on ASCII text. -/
def lowerStr (s : String) : String := ⟨s.data.map lowerChar⟩

/-! ## Whitespace collapsing and tag stripping (`_strip_html`) -/

/-- One-pass whitespace collapser: runs of whitespace become one space,
leading and trailing whitespace disappears.  The state is 0 when nothing
has been emitted yet, 1 inside a word, 2 after whitespace following a word. -/
def collapseGo : List Char → Nat → List Char
  | [], _ => []
  | c :: rest, st =>
    if isPySpace c then collapseGo rest (if st = 0 then 0 else 2)
    else if st = 2 then ' ' :: c :: collapseGo rest 1
    else c :: collapseGo rest 1

/-- Collapse whitespace runs and trim, as the combination of the
get_text call, the whitespace regex substitution and strip does. -/
def collapseWs (cs : List Char) : List Char := collapseGo cs 0

/-- Drop markup tag spans, emitting a separator in their place: this models
the text extraction BeautifulSoup performs in `_strip_html`.  On tag-free
input it is the identity.  The flag is true inside a tag. -/
def stripTagsGo : List Char → Bool → List Char
  | [], _ => []
  | c :: rest, true => if c = '>' then stripTagsGo rest false else stripTagsGo rest true
  | c :: rest, false =>
    if c = '<' then ' ' :: stripTagsGo rest true else c :: stripTagsGo rest false

/-- Tag removal on a character list. -/
def stripTags (cs : List Char) : List Char := stripTagsGo cs false

/-- Model of `_strip_html` (module_2/clean.py): a falsy input is returned unchanged;
otherwise markup is removed and whitespace normalized. -/
def strip_html (s : String) : String :=
  if s = "" then s else ⟨collapseWs (stripTags s.data)⟩

/-- Model of `_strip_html` seen through Python duck typing, where the absent value is
also falsy and returned unchanged. -/
def strip_html_opt (v : Option String) : Option String :=
  if v = none ∨ v = some "" then v
  else v.map (fun s => ⟨collapseWs (stripTags s.data)⟩)

/-! ## Regex building blocks

Each matcher consumes a match anchored at the head of the input and
returns the remaining characters, or fails.  They implement exactly the
backtracking the Python patterns can perform. -/

/-- Case-insensitive literal (pattern given in lower case); returns the rest. -/
def matchLitCI : List Char → List Char → Option (List Char)
  | [], cs => some cs
  | _ :: _, [] => none
  | p :: ps, c :: cs => if lowerChar c = p then matchLitCI ps cs else none

/-- Case-sensitive literal; returns the rest. -/
def matchLitCS : List Char → List Char → Option (List Char)
  | [], cs => some cs
  | _ :: _, [] => none
  | p :: ps, c :: cs => if c = p then matchLitCS ps cs else none

/-- Greedy one-or-more repetition of a character class. -/
def many1 (p : Char → Bool) : List Char → Option (List Char)
  | [] => none
  | c :: cs => if p c then some (cs.dropWhile p) else none

/-- Zero-or-more repetition of a character class. -/
def many0 (p : Char → Bool) (cs : List Char) : List Char := cs.dropWhile p

/-- Exactly n characters of a class. -/
def exactN (p : Char → Bool) : Nat → List Char → Option (List Char)
  | 0, cs => some cs
  | _ + 1, [] => none
  | n + 1, c :: cs => if p c then exactN p n cs else none

/-! ## The badge substitutions of `_clean_comment_text`

All ten patterns run with the ignore-case flag and the empty replacement. -/

/-- The season alternation of the term pattern. -/
def seasonAlt (cs : List Char) : Option (List Char) :=
  matchLitCI "fall".data cs <|> matchLitCI "spring".data cs <|>
  matchLitCI "summer".data cs <|> matchLitCI "winter".data cs

/-- Pattern: a season word, one or more spaces, exactly four digits. -/
def subSeasonYear (cs : List Char) : Option (List Char) :=
  (seasonAlt cs).bind fun r => (many1 isPySpace r).bind (exactN isAsciiDigit 4)

/-- Pattern: GPA, spaces, one or more digits or dots. -/
def subGpa (cs : List Char) : Option (List Char) :=
  (matchLitCI "gpa".data cs).bind fun r => (many1 isPySpace r).bind (many1 isDigitDot)

/-- Pattern: GRE, spaces, an optional General-plus-spaces group, digits.
The optional group is tried first, as the Python engine does. -/
def subGre (cs : List Char) : Option (List Char) :=
  (matchLitCI "gre".data cs).bind fun r =>
  (many1 isPySpace r).bind fun r1 =>
    ((matchLitCI "general".data r1).bind fun r2 =>
      (many1 isPySpace r2).bind (many1 isAsciiDigit)) <|>
    many1 isAsciiDigit r1

/-- Pattern: GRE, spaces, V, optional spaces, digits. -/
def subGreV (cs : List Char) : Option (List Char) :=
  (matchLitCI "gre".data cs).bind fun r =>
  (many1 isPySpace r).bind fun r1 =>
  (matchLitCI "v".data r1).bind fun r2 =>
  many1 isAsciiDigit (many0 isPySpace r2)

/-- Pattern: AW, spaces, one or more digits or dots. -/
def subAw (cs : List Char) : Option (List Char) :=
  (matchLitCI "aw".data cs).bind fun r => (many1 isPySpace r).bind (many1 isDigitDot)

/-- Pattern for the decision-date phrases: a literal word with single
spaces, then digits, spaces, and word characters. -/
def subDecidedOn (word : List Char) (cs : List Char) : Option (List Char) :=
  (matchLitCI word cs).bind fun r =>
  (many1 isAsciiDigit r).bind fun r1 =>
  (many1 isPySpace r1).bind (many1 isWordChar)

/-- One re.sub pass with the empty replacement: scan left to right, delete
each leftmost match, and resume after it.  The fuel is instantiated with
the input length, which is enough because every matcher above consumes at
least one character. -/
def subAll (m : List Char → Option (List Char)) : Nat → List Char → List Char
  | 0, cs => cs
  | _ + 1, [] => []
  | fuel + 1, c :: cs =>
    match m (c :: cs) with
    | some rest => subAll m fuel rest
    | none => c :: subAll m fuel cs

/-- A full substitution pass over an input. -/
def subPass (m : List Char → Option (List Char)) (cs : List Char) : List Char :=
  subAll m cs.length cs

/-- The ten badge substitutions of `_clean_comment_text`, in source order. -/
def badgeStrip (cs : List Char) : List Char :=
  let c1 := subPass subSeasonYear cs
  let c2 := subPass (matchLitCI "international".data) c1
  let c3 := subPass (matchLitCI "american".data) c2
  let c4 := subPass (matchLitCI "domestic".data) c3
  let c5 := subPass subGpa c4
  let c6 := subPass subGre c5
  let c7 := subPass subGreV c6
  let c8 := subPass subAw c7
  let c9 := subPass (subDecidedOn "accepted on ".data) c8
  subPass (subDecidedOn "rejected on ".data) c9

/-- The characters of the punctuation-and-space acceptance gate. -/
def isPunctSpace (c : Char) : Bool :=
  c = '.' || c = ',' || c = ';' || c = ':' || c = '!' || c = '?' || c = ' '

/-- The badge-stripped, whitespace-collapsed form an input takes inside
`_clean_comment_text`: `_strip_html`, the ten substitutions, then the
final whitespace join. -/
def commentForm (s : String) : String :=
  ⟨collapseWs (badgeStrip (strip_html s).data)⟩

/-- Model of `_clean_comment_text` (module_2/clean.py): falsy input gives the
no-comment signal; otherwise the cleaned form is accepted only when longer
than 15 characters and not made of punctuation and spaces alone, and is
then truncated to its first 500 characters. -/
def clean_comment_text (s : String) : Option String :=
  if s = "" then none
  else
    let cleaned := commentForm s
    if 15 < cleaned.length && !(cleaned.data.all isPunctSpace) then
      some ⟨cleaned.data.take 500⟩
    else none

/-! ## Searching matchers used by the Entry Parser

These model re.search: the matcher is tried at every position from the
left and the first success wins; each matcher returns the captured group. -/

/-- Try a matcher at each position, leftmost success first. -/
def reSearch {β : Type} (m : List Char → Option β) : List Char → Option β
  | [] => m []
  | c :: cs => m (c :: cs) <|> reSearch m cs

/-- Greedy one-or-more repetition returning the consumed run and the rest. -/
def takeWhile1 (p : Char → Bool) : List Char → Option (List Char × List Char)
  | [] => none
  | c :: cs => if p c then some (c :: cs.takeWhile p, cs.dropWhile p) else none

/-- Exactly n characters of a class, returning them and the rest. -/
def exactTake (p : Char → Bool) : Nat → List Char → Option (List Char × List Char)
  | 0, cs => some ([], cs)
  | _ + 1, [] => none
  | n + 1, c :: cs =>
    if p c then (exactTake p n cs).map (fun dr => (c :: dr.1, dr.2)) else none

/-- Case-insensitive literal returning the consumed original text and rest. -/
def matchLitCITake : List Char → List Char → Option (List Char × List Char)
  | [], cs => some ([], cs)
  | _ :: _, [] => none
  | p :: ps, c :: cs =>
    if lowerChar c = p then (matchLitCITake ps cs).map (fun tr => (c :: tr.1, tr.2)) else none

/-- The case-sensitive season alternation, keeping the matched word. -/
def seasonAltCS (cs : List Char) : Option (List Char × List Char) :=
  ((matchLitCS "Fall".data cs).map (fun r => ("Fall".data, r))) <|>
  ((matchLitCS "Spring".data cs).map (fun r => ("Spring".data, r))) <|>
  ((matchLitCS "Summer".data cs).map (fun r => ("Summer".data, r))) <|>
  ((matchLitCS "Winter".data cs).map (fun r => ("Winter".data, r)))

/-- Whole match of the case-sensitive term pattern: season word, spaces,
four digits. -/
def termMatch (cs : List Char) : Option (List Char) :=
  (seasonAltCS cs).bind fun wr =>
  (takeWhile1 isPySpace wr.2).bind fun sr =>
  (exactTake isAsciiDigit 4 sr.2).map fun dr => wr.1 ++ sr.1 ++ dr.1

/-- Captured number of the GPA pattern. -/
def gpaMatch (cs : List Char) : Option (List Char) :=
  (matchLitCS "GPA".data cs).bind fun r =>
  (takeWhile1 isPySpace r).bind fun sr =>
  (takeWhile1 isDigitDot sr.2).map fun dr => dr.1

/-- Captured number of the GRE pattern with its optional General group. -/
def greMatch (cs : List Char) : Option (List Char) :=
  (matchLitCS "GRE".data cs).bind fun r =>
  (takeWhile1 isPySpace r).bind fun sr =>
    ((matchLitCS "General".data sr.2).bind fun r2 =>
      (takeWhile1 isPySpace r2).bind fun sr2 =>
      (takeWhile1 isAsciiDigit sr2.2).map fun dr => dr.1) <|>
    (takeWhile1 isAsciiDigit sr.2).map fun dr => dr.1

/-- Captured number of the GRE verbal pattern. -/
def greVMatch (cs : List Char) : Option (List Char) :=
  (matchLitCS "GRE".data cs).bind fun r =>
  (takeWhile1 isPySpace r).bind fun sr =>
  (matchLitCS "V".data sr.2).bind fun r2 =>
  (takeWhile1 isAsciiDigit (many0 isPySpace r2)).map fun dr => dr.1

/-- The AW core of the analytical-writing pattern. -/
def awCore (cs : List Char) : Option (List Char) :=
  (matchLitCS "AW".data cs).bind fun r =>
  (takeWhile1 isPySpace r).bind fun sr =>
  (takeWhile1 isDigitDot sr.2).map fun dr => dr.1

/-- Captured number of the analytical-writing pattern, whose GRE head is
optional and preferred. -/
def greAwMatch (cs : List Char) : Option (List Char) :=
  ((matchLitCS "GRE".data cs).bind fun r =>
    (takeWhile1 isPySpace r).bind fun sr => awCore sr.2) <|>
  awCore cs

/-- The wait-listed alternative with its optional internal space, the
space being preferred as the engine does. -/
def waitlistedMatch (cs : List Char) : Option (List Char × List Char) :=
  (matchLitCITake "wait".data cs).bind fun tr =>
    (match tr.2 with
     | c :: r2 =>
       if isPySpace c then
         (matchLitCITake "listed".data r2).map (fun t2 => (tr.1 ++ c :: t2.1, t2.2))
       else none
     | [] => none) <|>
    (matchLitCITake "listed".data tr.2).map (fun t2 => (tr.1 ++ t2.1, t2.2))

/-- The decision-status alternation, case-insensitive, returning the
matched text with its original casing. -/
def statusMatch (cs : List Char) : Option (List Char) :=
  ((matchLitCITake "accepted".data cs).map (fun tr => tr.1)) <|>
  ((matchLitCITake "rejected".data cs).map (fun tr => tr.1)) <|>
  ((matchLitCITake "interview".data cs).map (fun tr => tr.1)) <|>
  ((waitlistedMatch cs).map (fun tr => tr.1))

/-- The greedy dot-plus group: one or more characters up to a line break. -/
def dotPlus : List Char → Option (List Char)
  | [] => none
  | c :: cs =>
    if c = '\n' then none
    else some (c :: cs.takeWhile (fun d => d != '\n'))

/-- The spaces before the captured group of the decision-date pattern,
taken greedily with backtracking: the longest run of whitespace after
which a dot-plus group still matches. -/
def spacesThenDot : List Char → Option (List Char)
  | [] => none
  | c :: rest =>
    if isPySpace c then
      match spacesThenDot rest with
      | some g => some g
      | none => dotPlus rest
    else none

/-- Captured group of the on-date pattern. -/
def onMatch (cs : List Char) : Option (List Char) :=
  (matchLitCI "on".data cs).bind spacesThenDot

/-- Python str.strip on a character list. -/
def pyStripL (cs : List Char) : List Char :=
  ((cs.dropWhile isPySpace).reverse.dropWhile isPySpace).reverse

/-- Parse of the decision cell: the matched status with original casing,
then the accepted and rejected dates, populated according to the
lower-cased status as the source does. -/
def decision_parse (t : List Char) : Option String × Option String × Option String :=
  match reSearch statusMatch t with
  | none => (none, none, none)
  | some st =>
    let d : Option String := (reSearch onMatch t).map fun g => ⟨pyStripL g⟩
    if lowerStr ⟨st⟩ = "accepted" then (some ⟨st⟩, d, none)
    else if lowerStr ⟨st⟩ = "rejected" then (some ⟨st⟩, none, d)
    else (some ⟨st⟩, none, none)

/-- Case-sensitive leading-match test. -/
def beginsWith : List Char → List Char → Bool
  | [], _ => true
  | _ :: _, [] => false
  | p :: ps, c :: cs => p = c && beginsWith ps cs

/-- Case-sensitive substring containment, as the in operator on str. -/
def containsSub (pat : List Char) : List Char → Bool
  | [] => beginsWith pat []
  | c :: cs => beginsWith pat (c :: cs) || containsSub pat cs

/-! ## The page model and the Entry Parser -/

/-- The observations the parser makes of one table cell. -/
structure Cell where
  text : String
  spans : List String
  colspan : Bool
  href : Option String
deriving DecidableEq

/-- One table row: its cells and its full text. -/
structure Row where
  cells : List Cell
  fullText : String
deriving DecidableEq

/-- One definition-list term of a detail page and the text of the
definition that follows it, when one exists. -/
structure DtEntry where
  label : String
  dd : Option String
deriving DecidableEq

/-- The environment abstracting the HTTP client and the HTML parser:
URL resolution, page fetching, and the DOM observations of a fetched
document. -/
structure Env where
  urljoin : String → String → String
  fetchUrl : String → Option String
  htmlRows : String → Option (List Row)
  htmlDts : String → List DtEntry
  anchors : String → List String

/-- The note labels `_extract_comments_from_result_page` recognizes. -/
def labelIsNotes (l : String) : Bool :=
  l = "notes" || l = "note" || l = "comments" || l = "comment"

/-- Scan of the definition-list terms: the first recognized label whose
definition text is non-empty wins. -/
def scanDts : List DtEntry → Option String
  | [] => none
  | d :: rest =>
    if labelIsNotes (lowerStr d.label) then
      match d.dd with
      | some t => if t = "" then scanDts rest else some t
      | none => scanDts rest
    else scanDts rest

/-- Model of `_extract_comments_from_result_page` (module_2/scrape.py). -/
def extract_comments_from_result_page (env : Env) (resultUrl : String) : Option String :=
  match env.fetchUrl resultUrl with
  | none => none
  | some html => if html = "" then none else scanDts (env.htmlDts html)

/-- One parsed application-result entry, with the field set the source
builds. -/
structure Entry where
  program_name : String
  university : String
  comments : Option String
  date_posted : Option String
  url : String
  applicant_status : Option String
  accepted_date : Option String
  rejected_date : Option String
  start_term : Option String
  citizenship : Option String
  gre_score : Option String
  gre_v : Option String
  gre_aw : Option String
  degree : Option String
  gpa : Option String
deriving DecidableEq

/-- Term extraction over detail-row text. -/
def termOf (t : String) : Option String :=
  (reSearch termMatch t.data).map String.mk

/-- Citizenship extraction over detail-row text. -/
def citizenshipOf (t : String) : Option String :=
  if containsSub "International".data t.data then some "International"
  else if containsSub "American".data t.data || containsSub "Domestic".data t.data then
    some "American"
  else none

/-- GPA extraction over detail-row text. -/
def gpaOf (t : String) : Option String :=
  (reSearch gpaMatch t.data).map String.mk

/-- GRE total extraction over detail-row text. -/
def greOf (t : String) : Option String :=
  (reSearch greMatch t.data).map String.mk

/-- GRE verbal extraction over detail-row text. -/
def greVOf (t : String) : Option String :=
  (reSearch greVMatch t.data).map String.mk

/-- GRE analytical-writing extraction over detail-row text. -/
def greAwOf (t : String) : Option String :=
  (reSearch greAwMatch t.data).map String.mk

/-- The fields a details row contributes. -/
structure DetailFields where
  start_term : Option String
  citizenship : Option String
  gpa : Option String
  gre_score : Option String
  gre_v : Option String
  gre_aw : Option String
  comments : Option String
deriving DecidableEq

/-- The extraction the parser performs over the full text of a details row. -/
def detailFieldsOf (t : String) : DetailFields :=
  { start_term := termOf t
    citizenship := citizenshipOf t
    gpa := gpaOf t
    gre_score := greOf t
    gre_v := greVOf t
    gre_aw := greAwOf t
    comments := clean_comment_text t }

/-- The absent detail fields used when no details row follows. -/
def emptyDetailFields : DetailFields :=
  ⟨none, none, none, none, none, none, none⟩

/-- A details row announces itself by a cell bearing a colspan attribute. -/
def hasColspanTd (r : Row) : Bool :=
  r.cells.any fun c => c.colspan

/-- Filler cell for indexing; the parser only builds entries from rows
with at least four cells, so it is never observed. -/
def defCell : Cell := ⟨"", [], false, none⟩

/-- The candidate detail-page link of a primary row: the href of the
fifth cell, resolved against the source page URL unless already absolute. -/
def resultLinkOf (env : Env) (sourceUrl : String) (r1 : Row) : Option String :=
  if 4 < r1.cells.length then
    match (r1.cells.getD 4 defCell).href with
    | some h => some (if beginsWith "http".data h.data then h else env.urljoin sourceUrl h)
    | none => none
  else none

/-- The detail fields contributed by an optional details row. -/
def detailOf (detail : Option Row) : DetailFields :=
  match detail with
  | some r2 => detailFieldsOf r2.fullText
  | none => emptyDetailFields

/-- The detail-page comment override: a truthy detail-page comment wins
over the row-two fallback. -/
def commentsOf (env : Env) (fallback : Option String) (result_link : Option String) :
    Option String :=
  match result_link with
  | some l =>
    if l = "" then fallback
    else
      match extract_comments_from_result_page env l with
      | some rich => if rich = "" then fallback else some rich
      | none => fallback
  | none => fallback

/-- The URL field: the detail link when truthy, else the source page URL. -/
def urlOf (result_link : Option String) (sourceUrl : String) : String :=
  match result_link with
  | some l => if l = "" then sourceUrl else l
  | none => sourceUrl

/-- The decision-cell text of a primary row. -/
def decisionTextOf (r1 : Row) : String :=
  if 3 < r1.cells.length then (r1.cells.getD 3 defCell).text else ""

/-- Construction of one entry from its primary row and optional details
row, including the detail-page comment override and the URL fallback. -/
def buildEntry (env : Env) (sourceUrl : String) (r1 : Row) (detail : Option Row) : Entry :=
  { program_name := ((r1.cells.getD 1 defCell).spans).getD 0 ""
    university := (r1.cells.getD 0 defCell).text
    comments := commentsOf env (detailOf detail).comments (resultLinkOf env sourceUrl r1)
    date_posted := if 2 < r1.cells.length then some (r1.cells.getD 2 defCell).text else none
    url := urlOf (resultLinkOf env sourceUrl r1) sourceUrl
    applicant_status := (decision_parse (decisionTextOf r1).data).1
    accepted_date := (decision_parse (decisionTextOf r1).data).2.1
    rejected_date := (decision_parse (decisionTextOf r1).data).2.2
    start_term := (detailOf detail).start_term
    citizenship := (detailOf detail).citizenship
    gre_score := (detailOf detail).gre_score
    gre_v := (detailOf detail).gre_v
    gre_aw := (detailOf detail).gre_aw
    degree := (r1.cells.getD 1 defCell).spans.get? 1
    gpa := (detailOf detail).gpa }

/-- The row-consumption loop of `_extract_entries_from_page`: a row with
fewer than four cells is skipped; otherwise the following row is consumed
as a details row exactly when it carries a colspan cell.  The fuel only
serves termination: every iteration consumes at least one row, so the row
count is enough fuel, and `extractLoopF_congr` shows any enough fuel is
interchangeable. -/
def extractLoopF (env : Env) (sourceUrl : String) : Nat → List Row → List Entry
  | 0, _ => []
  | _ + 1, [] => []
  | fuel + 1, r1 :: rest =>
    if r1.cells.length < 4 then extractLoopF env sourceUrl fuel rest
    else
      match rest with
      | r2 :: rest2 =>
        if hasColspanTd r2 then
          buildEntry env sourceUrl r1 (some r2) :: extractLoopF env sourceUrl fuel rest2
        else
          buildEntry env sourceUrl r1 none :: extractLoopF env sourceUrl fuel rest
      | [] => [buildEntry env sourceUrl r1 none]

/-- The loop at its natural fuel. -/
def extractLoop (env : Env) (sourceUrl : String) (rows : List Row) : List Entry :=
  extractLoopF env sourceUrl rows.length rows

/-- Model of `_extract_entries_from_page` (module_2/scrape.py and
module_4/src/scrape.py, identical logic): no table means no entries, and
the scan starts after the header row. -/
def extract_entries_from_page (env : Env) (html : String) (sourceUrl : String) : List Entry :=
  match env.htmlRows html with
  | none => []
  | some rows => extractLoop env sourceUrl (rows.drop 1)

/-! ## The link-discovery Pagination Driver (module_2/scrape.py) -/

/-- Code-point lexicographic order on character lists, the order Python
sorts strings by. -/
def lexLe : List Char → List Char → Bool
  | [], _ => true
  | _ :: _, [] => false
  | a :: xs, b :: ys =>
    if a.toNat < b.toNat then true
    else if b.toNat < a.toNat then false
    else lexLe xs ys

/-- String comparison derived from `lexLe`. -/
def strLeB (a b : String) : Bool := lexLe a.data b.data

/-- Insertion into a sorted list. -/
def insertSorted (x : String) : List String → List String
  | [] => [x]
  | y :: ys => if strLeB x y then x :: y :: ys else y :: insertSorted x ys

/-- Sorting, as the sorted builtin produces on a set of strings. -/
def sortStrs (l : List String) : List String := l.foldr insertSorted []

/-- Duplicate removal keeping first occurrences, modelling set insertion. -/
def dedupAcc (seen : List String) : List String → List String
  | [] => []
  | x :: xs => if seen.contains x then dedupAcc seen xs else x :: dedupAcc (x :: seen) xs

/-- The final seen-loop of `_find_post_links`: order preserved, empty
links dropped, duplicates dropped. -/
def orderDedup (seen : List String) : List String → List String
  | [] => []
  | x :: xs =>
    if x = "" then orderDedup seen xs
    else if seen.contains x then orderDedup seen xs
    else x :: orderDedup (x :: seen) xs

/-- Model of `_find_post_links` (module_2/scrape.py): survey links of the base
page, resolved, deduplicated, sorted after a forced first element. -/
def find_post_links (env : Env) (html : String) (baseUrl : String) : List String :=
  let raw := (env.anchors html).filterMap fun a =>
    let h : String := ⟨pyStripL a.data⟩
    if h = "" then none
    else if containsSub "/survey".data h.data then some (env.urljoin baseUrl h) else none
  let uniqSorted := sortStrs (dedupAcc [] raw)
  let baseSurvey := env.urljoin baseUrl "/survey/"
  let ordered := baseSurvey :: uniqSorted.filter (fun l => l ≠ baseSurvey)
  orderDedup [] ordered

/-- The consumption loop of module_2 `scrape_data`: one pass over the
discovered links, a failed or empty fetch skipping to the next link, and
entries appended up to the remaining room under the limit. -/
def scrape2Loop (env : Env) (limit : Nat) : List String → List Entry → List Entry
  | [], results => results
  | link :: rest, results =>
    if limit ≤ results.length then results
    else
      match env.fetchUrl link with
      | none => scrape2Loop env limit rest results
      | some h =>
        if h = "" then scrape2Loop env limit rest results
        else scrape2Loop env limit rest
          (results ++ (extract_entries_from_page env h link).take (limit - results.length))

/-- module_2 `scrape_data`. -/
def scrape_data_m2 (env : Env) (baseUrl : String) (limit : Nat) : List Entry :=
  match env.fetchUrl baseUrl with
  | none => []
  | some html =>
    if html = "" then []
    else scrape2Loop env limit (find_post_links env html baseUrl) []

/-- The number of entries the successfully fetched pages of a link list
hold, the quantity module_2 `scrape_data` draws from. -/
def avail2 (env : Env) : List String → Nat
  | [] => 0
  | link :: rest =>
    (match env.fetchUrl link with
     | none => 0
     | some h => if h = "" then 0 else (extract_entries_from_page env h link).length)
    + avail2 env rest

/-! ## The page-number Pagination Driver (module_4/src/scrape.py) -/

/-- The page URL module_4 `scrape_data` builds for a page number. -/
def pageUrl4 (env : Env) (baseUrl : String) (pageNum : Nat) : String :=
  if pageNum = 1 then env.urljoin baseUrl "/survey/"
  else env.urljoin baseUrl ("/survey/?page=" ++ toString pageNum)

/-- The while loop of module_4 `scrape_data`.  A failed or empty fetch
stops it, a page with no entries stops it, and otherwise entries are
appended up to the remaining room.  The fuel only serves termination:
every continuing iteration strictly grows the result, so the limit plus
one is always enough. -/
def scrape4Loop (env : Env) (baseUrl : String) (limit : Nat) :
    Nat → List Entry → Nat → List Entry
  | 0, results, _ => results
  | fuel + 1, results, pageNum =>
    if limit ≤ results.length then results
    else
      let pageUrl := pageUrl4 env baseUrl pageNum
      match env.fetchUrl pageUrl with
      | none => results
      | some html =>
        if html = "" then results
        else
          let entries := extract_entries_from_page env html pageUrl
          if entries = [] then results
          else scrape4Loop env baseUrl limit fuel
            (results ++ entries.take (limit - results.length)) (pageNum + 1)

/-- module_4 `scrape_data`. -/
def scrape_data_m4 (env : Env) (baseUrl : String) (limit : Nat) : List Entry :=
  scrape4Loop env baseUrl limit (limit + 1) [] 1

/-- The entries page number p would contribute, empty when its fetch
fails or comes back empty. -/
def entriesAt (env : Env) (baseUrl : String) (p : Nat) : List Entry :=
  match env.fetchUrl (pageUrl4 env baseUrl p) with
  | none => []
  | some html =>
    if html = "" then [] else extract_entries_from_page env html (pageUrl4 env baseUrl p)

/-- Pages p through p+k-1 all fetch successfully, non-empty, and parse to
at least one entry each. -/
def goodRun (env : Env) (baseUrl : String) : Nat → Nat → Bool
  | _, 0 => true
  | p, k + 1 =>
    (match env.fetchUrl (pageUrl4 env baseUrl p) with
     | none => false
     | some html =>
       !(html == "") &&
       !(extract_entries_from_page env html (pageUrl4 env baseUrl p) == []))
    && goodRun env baseUrl (p + 1) k

/-- The total number of entries pages p through p+k-1 hold. -/
def supply (env : Env) (baseUrl : String) : Nat → Nat → Nat
  | _, 0 => 0
  | p, k + 1 => (entriesAt env baseUrl p).length + supply env baseUrl (p + 1) k

/-! ## Record cleaning (`_normalize_value`, `_clean_record`, `clean_data`) -/

/-- A Python value as `_normalize_value` distinguishes them: the absent
value, a string, or anything else (carried opaquely). -/
inductive PyValue (α : Type) where
  | vnone : PyValue α
  | vstr : String → PyValue α
  | vother : α → PyValue α
deriving DecidableEq

/-- The configured missing value, as a Python value. -/
def missingVal {α : Type} (missing : Option String) : PyValue α :=
  match missing with
  | none => .vnone
  | some m => .vstr m

/-- Model of `_normalize_value` (module_2/clean.py). -/
def normalize_value {α : Type} (missing : Option String) : PyValue α → PyValue α
  | .vnone => missingVal missing
  | .vstr s =>
    let cleaned := strip_html s
    if cleaned = "" then missingVal missing else .vstr cleaned
  | .vother a => .vother a

/-- Model of `_clean_record`: a record is a key-value list in insertion order. -/
def clean_record {α : Type} (missing : Option String)
    (record : List (String × PyValue α)) : List (String × PyValue α) :=
  record.map fun kv => (kv.1, normalize_value missing kv.2)

/-- Model of `clean_data` (module_2/clean.py). -/
def clean_data {α : Type} (missing : Option String)
    (data : List (List (String × PyValue α))) : List (List (String × PyValue α)) :=
  data.map (clean_record missing)

/-! ## The LLM standardization call (`_standardize_university_with_llm`) -/

/-- The body of an LLM API response, as the code inspects it. -/
inductive LlmBody (α : Type) where
  | notJson : LlmBody α
  | jsonNotList : LlmBody α
  | jsonList : List α → LlmBody α
deriving DecidableEq

/-- The outcome of one POST to the standardization service: either the
transport raised, or a status code and a body came back. -/
inductive LlmOutcome (α : Type) where
  | raised : LlmOutcome α
  | response : Nat → LlmBody α → LlmOutcome α
deriving DecidableEq

/-- The response handling of `_standardize_university_with_llm`: only a
success status carrying a JSON list with at least one element replaces
the entry. -/
def llmExtract {α : Type} (status : Nat) (body : LlmBody α) (entry : α) : α :=
  if status = 200 then
    match body with
    | .notJson => entry
    | .jsonNotList => entry
    | .jsonList [] => entry
    | .jsonList (x :: _) => x
  else entry

/-- Model of `_standardize_university_with_llm` (module_5/src/clean.py): the entry is
replaced by the first element of a 200-status JSON list response, and is
returned unchanged in every other situation. -/
def standardize_university_with_llm {α : Type} (transport : String → LlmOutcome α)
    (apiUrl : Option String) (defaultUrl : String) (entry : α) : α :=
  match transport (apiUrl.getD defaultUrl) with
  | .raised => entry
  | .response status body => llmExtract status body entry

/-! ## Concrete pages and environments for witnesses and counterexamples -/

/-- Concrete record list for the frame-property witness. -/
def dataW : List (List (String × PyValue Nat)) :=
  [[("university", PyValue.vstr "<b>MIT</b>"), ("gre", PyValue.vother 320), ("gpa", PyValue.vnone)]]

/-- A plain cell with only text. -/
def cCell (t : String) : Cell := ⟨t, [], false, none⟩

/-- A default entry used only to take the head of concrete result lists. -/
def defEntry : Entry :=
  ⟨"", "", none, none, "", none, none, none, none, none, none, none, none, none, none⟩

/-- A header row. -/
def cHeader : Row := ⟨[], "University Program Added on Decision"⟩

/-- A primary row with four cells and an accepted decision. -/
def cRow1 : Row :=
  ⟨[cCell "MIT",
    ⟨"Computer Science, PhD", ["Computer Science", "PhD"], false, none⟩,
    cCell "01 Feb 2026", cCell "Accepted on 28 Jan"],
   "MIT Computer Science PhD 01 Feb 2026 Accepted on 28 Jan"⟩

/-- A details row carrying a colspan cell, badges and a free comment. -/
def cRow2 : Row :=
  ⟨[⟨"Fall 2026 International GPA 3.8", [], true, none⟩],
   "Fall 2026 International GPA 3.8 GRE 325 Good program overall, faculty kind"⟩

/-- A second primary row, with no colspan cell. -/
def cRow3 : Row :=
  ⟨[cCell "CMU", ⟨"Math", ["Math"], false, none⟩, cCell "02 Feb 2026",
    cCell "Rejected on 30 Jan"],
   "CMU Math 02 Feb 2026 Rejected on 30 Jan"⟩

/-- A primary row whose fifth cell links to a detail page. -/
def cRowL : Row :=
  ⟨[cCell "MIT", ⟨"CS", ["CS"], false, none⟩, cCell "01 Feb",
    cCell "Interview on 5 Feb", ⟨"Open", [], false, some "http://d/1"⟩],
   "MIT CS 01 Feb Interview on 5 Feb Open"⟩

/-- An offline environment serving three listing pages. -/
def cEnvMain : Env :=
  { urljoin := fun b r => b ++ r
    fetchUrl := fun _ => none
    htmlRows := fun h =>
      if h = "H" then some [cHeader, cRow1, cRow2]
      else if h = "H2" then some [cHeader, cRow1, cRow3]
      else if h = "P" then some [cHeader, cRow1]
      else none
    htmlDts := fun _ => []
    anchors := fun _ => [] }

/-- An environment whose detail page answers with a bare dot comment.
Its urljoin agrees with the library resolution on every exercised input. -/
def cEnvC1 : Env :=
  { urljoin := fun b r => b ++ r
    fetchUrl := fun u => if u = "http://d/1" then some "DP" else none
    htmlRows := fun h => if h = "L" then some [cHeader, cRowL] else none
    htmlDts := fun h => if h = "DP" then [⟨"Notes", some "."⟩] else []
    anchors := fun _ => [] }

/-- The 500-character punctuation run and the input producing it. -/
def cexDots : String := ⟨List.replicate 500 '.'⟩

/-- An input whose badge-stripped form is 500 dots followed by letters. -/
def cexLong : String := ⟨List.replicate 500 '.' ++ " abcdefghijklmnop".data⟩

/-- An environment where the first survey page fails to fetch while the
second one answers with one entry. -/
def cEnvC2 : Env :=
  { urljoin := fun b r => b ++ r
    fetchUrl := fun u =>
      if u = "B" then some "IDX"
      else if u = "B/survey/?page=2" then some "PG2"
      else none
    htmlRows := fun h => if h = "PG2" then some [cHeader, cRow1] else none
    htmlDts := fun _ => []
    anchors := fun h => if h = "IDX" then ["/survey/?page=2"] else [] }

/-- An environment exercising the three stop conditions of the
page-number driver: a failed fetch, an empty body, and an empty page. -/
def cEnvM4 : Env :=
  { urljoin := fun b r => b ++ r
    fetchUrl := fun u =>
      if u = "C/survey/" then some "E"
      else if u = "D/survey/" then some ""
      else none
    htmlRows := fun h => if h = "E" then some [cHeader] else none
    htmlDts := fun _ => []
    anchors := fun _ => [] }

/-- An environment with two survey pages holding two and one entries. -/
def cEnvM6 : Env :=
  { urljoin := fun b r => b ++ r
    fetchUrl := fun u =>
      if u = "B" then some "IDX"
      else if u = "B/survey/" then some "PG1"
      else if u = "B/survey/?page=2" then some "PG2"
      else none
    htmlRows := fun h =>
      if h = "PG1" then some [cHeader, cRow1, cRow3]
      else if h = "PG2" then some [cHeader, cRow3]
      else none
    htmlDts := fun _ => []
    anchors := fun _ => [] }

/-! ## Helper lemmas -/

set_option maxRecDepth 8000

/-- Unfolding of the Comment Extractor on a non-falsy input. -/
lemma clean_comment_text_eq (s : String) (hs : s ≠ "") :
    clean_comment_text s =
      if 15 < (commentForm s).length && !((commentForm s).data.all isPunctSpace) then
        some ⟨(commentForm s).data.take 500⟩
      else none := by
  unfold clean_comment_text
  rw [if_neg hs]

/-- String length through the character list. -/
lemma strLength (s : String) : s.length = s.data.length := rfl

/-- Any comment the Comment Extractor accepts is non-empty and at most
500 characters long. -/
lemma clean_comment_some_bounds (s c : String) (h : clean_comment_text s = some c) :
    c ≠ "" ∧ c.length ≤ 500 := by
  by_cases hs : s = ""
  · rw [hs] at h
    have h0 : clean_comment_text "" = none := by decide
    rw [h0] at h
    exact absurd h (fun hx => Option.noConfusion hx)
  · rw [clean_comment_text_eq s hs] at h
    cases hcond : (15 < (commentForm s).length && !((commentForm s).data.all isPunctSpace)) with
    | false =>
      rw [hcond] at h
      rw [if_neg Bool.false_ne_true] at h
      exact absurd h (fun hx => Option.noConfusion hx)
    | true =>
      rw [hcond] at h
      rw [if_pos (rfl : true = true)] at h
      rw [Option.some.injEq] at h
      rw [Bool.and_eq_true] at hcond
      obtain ⟨h15, -⟩ := hcond
      have h15' : 15 < (commentForm s).data.length := by
        have h16 := of_decide_eq_true h15
        rw [strLength] at h16
        exact h16
      have hc : c.data = (commentForm s).data.take 500 := by rw [← h]
      constructor
      · intro hce
        have hnil : c.data = [] := by rw [hce]
        rw [hc] at hnil
        have hlen := congrArg List.length hnil
        rw [List.length_take, List.length_nil] at hlen
        omega
      · rw [strLength, hc, List.length_take]
        omega

/-! ## Claim theorems: the Comment Extractor and the Text Normalizer -/

/-- C3: for every input string, when its badge-stripped,
whitespace-collapsed form has length at most 15 or consists solely of the
punctuation-and-space characters, the Comment Extractor returns the
no-comment signal; otherwise it returns that form truncated to its first
500 characters. -/
theorem comment_gate (s : String) :
    ((commentForm s).length ≤ 15 ∨ (commentForm s).data.all isPunctSpace = true →
      clean_comment_text s = none) ∧
    (¬ ((commentForm s).length ≤ 15 ∨ (commentForm s).data.all isPunctSpace = true) →
      clean_comment_text s = some ⟨(commentForm s).data.take 500⟩) := by
  by_cases hs : s = ""
  · constructor
    · intro _
      rw [hs]
      decide
    · intro hcontra
      exfalso
      apply hcontra
      left
      rw [hs]
      decide
  · rw [clean_comment_text_eq s hs]
    cases hcond : (15 < (commentForm s).length && !((commentForm s).data.all isPunctSpace)) with
    | false =>
      rw [if_neg Bool.false_ne_true]
      constructor
      · intro _
        rfl
      · intro hc
        exfalso
        apply hc
        cases hlen : decide (15 < (commentForm s).length) with
        | false =>
          left
          have := of_decide_eq_false hlen
          omega
        | true =>
          cases hall : (commentForm s).data.all isPunctSpace with
          | true => exact Or.inr rfl
          | false =>
            rw [hlen, hall] at hcond
            exact absurd hcond (by decide)
    | true =>
      rw [if_pos (rfl : true = true)]
      constructor
      · intro hc
        exfalso
        rw [Bool.and_eq_true] at hcond
        obtain ⟨h15, hall⟩ := hcond
        rcases hc with hc | hc
        · have := of_decide_eq_true h15
          omega
        · rw [hc] at hall
          exact absurd hall (by decide)
      · intro _
        rfl

/-- Witness for the comment gate at two concrete inputs, one per branch. -/
theorem comment_gate_w :
    clean_comment_text "Short" = none ∧
    clean_comment_text "abcdefghijklmnopqrstuvwxyz" = some "abcdefghijklmnopqrstuvwxyz" := by
  constructor
  · exact (comment_gate "Short").1 (by decide)
  · have h := (comment_gate "abcdefghijklmnopqrstuvwxyz").2 (by decide)
    rw [h]
    decide

/-- C4: the Comment Extractor strips every badge token of the
specification example and trims the remainder exactly. -/
theorem badge_strip_example :
    clean_comment_text
        "This is a really great program with excellent faculty! Fall 2026 International GPA 3.8 GRE 325" =
      some "This is a really great program with excellent faculty!" := by
  decide

/-- C9: the Text Normalizer returns a falsy input unchanged, both for the
empty string and for the absent value. -/
theorem strip_html_falsy :
    strip_html "" = "" ∧ strip_html_opt none = none ∧ strip_html_opt (some "") = some "" := by
  exact ⟨by decide, by decide, by decide⟩

/-! ## Claim theorems: the LLM standardization call -/

/-- C8: the LLM standardization call returns the original entry unchanged
when the transport raises, when the response status is not a success, and
when a success response carries a malformed body. -/
theorem llm_error_fallback {α : Type} (transport : String → LlmOutcome α)
    (apiUrl : Option String) (defaultUrl : String) (entry : α) :
    (transport (apiUrl.getD defaultUrl) = LlmOutcome.raised →
      standardize_university_with_llm transport apiUrl defaultUrl entry = entry) ∧
    (∀ status body, status ≠ 200 →
      transport (apiUrl.getD defaultUrl) = LlmOutcome.response status body →
      standardize_university_with_llm transport apiUrl defaultUrl entry = entry) ∧
    (transport (apiUrl.getD defaultUrl) = LlmOutcome.response 200 LlmBody.notJson →
      standardize_university_with_llm transport apiUrl defaultUrl entry = entry) := by
  refine ⟨?_, ?_, ?_⟩
  · intro h
    unfold standardize_university_with_llm
    rw [h]
  · intro status body hst h
    unfold standardize_university_with_llm
    rw [h]
    show llmExtract status body entry = entry
    unfold llmExtract
    rw [if_neg hst]
  · intro h
    unfold standardize_university_with_llm
    rw [h]
    rfl

/-- Witness for the LLM fallback at three concrete transports. -/
theorem llm_error_fallback_w :
    standardize_university_with_llm (fun _ => (LlmOutcome.raised : LlmOutcome Nat)) none "u" 3 = 3 ∧
    standardize_university_with_llm
      (fun _ => LlmOutcome.response 500 (LlmBody.jsonList ([7] : List Nat))) none "u" 3 = 3 ∧
    standardize_university_with_llm
      (fun _ => (LlmOutcome.response 200 LlmBody.notJson : LlmOutcome Nat)) none "u" 3 = 3 := by
  refine ⟨?_, ?_, ?_⟩
  · exact (llm_error_fallback _ none "u" 3).1 rfl
  · exact (llm_error_fallback _ none "u" 3).2.1 500 _ (by decide) rfl
  · exact (llm_error_fallback _ none "u" 3).2.2 rfl

/-! ## Claim theorems: record cleaning -/

/-- C10: cleaning preserves list length and order, every record keeps its
key sequence, and any value that is neither the absent value nor a string
is carried through unchanged. -/
theorem clean_data_frame {α : Type} (missing : Option String)
    (data : List (List (String × PyValue α))) :
    (clean_data missing data).length = data.length ∧
    ∀ i, i < data.length →
      ((clean_data missing data).getD i []).map Prod.fst = (data.getD i []).map Prod.fst ∧
      ((clean_data missing data).getD i []).length = (data.getD i []).length ∧
      ∀ j k a, (data.getD i []).getD j ("", PyValue.vnone) = (k, PyValue.vother a) →
        ((clean_data missing data).getD i []).getD j ("", PyValue.vnone) =
          (k, PyValue.vother a) := by
  constructor
  · simp [clean_data]
  · intro i hi
    have hget : ∀ (l : List (List (String × PyValue α))) (n : Nat),
        (l.map (clean_record missing)).getD n [] = clean_record missing (l.getD n []) := by
      intro l
      induction l with
      | nil => intro n; cases n <;> simp [clean_record]
      | cons x xs ih =>
        intro n
        cases n with
        | zero => simp
        | succ m =>
          simp only [List.map_cons, List.getD_cons_succ]
          exact ih m
    have h1 : (clean_data missing data).getD i [] = clean_record missing (data.getD i []) :=
      hget data i
    rw [h1]
    refine ⟨?_, ?_, ?_⟩
    · have hkeys : ∀ (r : List (String × PyValue α)),
          (clean_record missing r).map Prod.fst = r.map Prod.fst := by
        intro r
        induction r with
        | nil => rfl
        | cons kv t ih =>
          simp only [clean_record, List.map_cons] at ih ⊢
          rw [ih]
      exact hkeys _
    · simp [clean_record]
    · intro j k a hja
      have hoth : ∀ (r : List (String × PyValue α)) (n : Nat),
          r.getD n ("", PyValue.vnone) = (k, PyValue.vother a) →
          (clean_record missing r).getD n ("", PyValue.vnone) = (k, PyValue.vother a) := by
        intro r
        induction r with
        | nil =>
          intro n hn
          rw [List.getD_nil] at hn
          exact absurd hn (by simp)
        | cons kv t ih =>
          intro n hn
          cases n with
          | zero =>
            rw [List.getD_cons_zero] at hn
            simp only [clean_record, List.map_cons, List.getD_cons_zero]
            rw [hn]
            rfl
          | succ m =>
            rw [List.getD_cons_succ] at hn
            simp only [clean_record, List.map_cons, List.getD_cons_succ]
            exact ih m hn
      exact hoth _ j hja

/-- Witness for the frame property on a concrete record list. -/
theorem clean_data_frame_w :
    ((clean_data (some "NA") dataW).getD 0 []).map Prod.fst = (dataW.getD 0 []).map Prod.fst ∧
    ((clean_data (some "NA") dataW).getD 0 []).getD 1 ("", PyValue.vnone) =
      ("gre", PyValue.vother 320) := by
  have h := clean_data_frame (some "NA") dataW
  exact ⟨(h.2 0 (by decide)).1, (h.2 0 (by decide)).2.2 1 "gre" 320 (by decide)⟩

/-! ## Lemmas about the Entry Parser -/

/-- Any two sufficient fuels drive the row loop to the same result. -/
lemma extractLoopF_congr (env : Env) (su : String) :
    ∀ (f1 : Nat) (rows : List Row) (f2 : Nat), rows.length ≤ f1 → rows.length ≤ f2 →
      extractLoopF env su f1 rows = extractLoopF env su f2 rows := by
  intro f1
  induction f1 with
  | zero =>
    intro rows f2 h1 h2
    have hnil : rows = [] := List.eq_nil_of_length_eq_zero (Nat.le_zero.mp h1)
    subst hnil
    cases f2 with
    | zero => rfl
    | succ g => rfl
  | succ f ih =>
    intro rows f2 h1 h2
    cases rows with
    | nil =>
      cases f2 with
      | zero => rfl
      | succ g => rfl
    | cons r1 rest =>
      rw [List.length_cons] at h1 h2
      cases f2 with
      | zero => omega
      | succ g =>
        simp only [extractLoopF]
        by_cases h4 : r1.cells.length < 4
        · rw [if_pos h4, if_pos h4]
          exact ih rest g (by omega) (by omega)
        · rw [if_neg h4, if_neg h4]
          cases rest with
          | nil => rfl
          | cons r2 rest2 =>
            rw [List.length_cons] at h1 h2
            dsimp only
            cases hcs : hasColspanTd r2 with
            | true =>
              rw [if_pos (rfl : true = true), if_pos (rfl : true = true)]
              exact congrArg (List.cons (buildEntry env su r1 (some r2)))
                (ih rest2 g (by omega) (by omega))
            | false =>
              rw [if_neg Bool.false_ne_true, if_neg Bool.false_ne_true]
              exact congrArg (List.cons (buildEntry env su r1 none))
                (ih (r2 :: rest2) g (by rw [List.length_cons]; omega)
                  (by rw [List.length_cons]; omega))

/-- A thin row is skipped by the loop. -/
lemma extractLoop_cons_skip (env : Env) (su : String) (r1 : Row) (rest : List Row)
    (h : r1.cells.length < 4) :
    extractLoop env su (r1 :: rest) = extractLoop env su rest := by
  unfold extractLoop
  rw [List.length_cons]
  simp only [extractLoopF]
  rw [if_pos h]

/-- A primary row followed by a colspan row consumes both rows and emits
one entry built from both. -/
lemma extractLoop_cons_pair (env : Env) (su : String) (r1 r2 : Row) (rest : List Row)
    (h4 : ¬ r1.cells.length < 4) (hcs : hasColspanTd r2 = true) :
    extractLoop env su (r1 :: r2 :: rest) =
      buildEntry env su r1 (some r2) :: extractLoop env su rest := by
  unfold extractLoop
  rw [List.length_cons, List.length_cons]
  simp only [extractLoopF]
  rw [if_neg h4]
  rw [hcs]
  rw [if_pos (rfl : true = true)]
  exact congrArg (List.cons (buildEntry env su r1 (some r2)))
    (extractLoopF_congr env su (rest.length + 1) rest rest.length (by omega) (by omega))

/-- A primary row whose follower bears no colspan cell consumes only
itself; the follower is reconsidered by the loop. -/
lemma extractLoop_cons_nopair (env : Env) (su : String) (r1 r2 : Row) (rest : List Row)
    (h4 : ¬ r1.cells.length < 4) (hcs : hasColspanTd r2 = false) :
    extractLoop env su (r1 :: r2 :: rest) =
      buildEntry env su r1 none :: extractLoop env su (r2 :: rest) := by
  unfold extractLoop
  rw [List.length_cons, List.length_cons]
  simp only [extractLoopF]
  rw [if_neg h4]
  rw [hcs]
  rw [if_neg Bool.false_ne_true]

/-- Every entry the loop emits is built by `buildEntry`. -/
lemma mem_extractLoopF (env : Env) (su : String) :
    ∀ (fuel : Nat) (rows : List Row) (e : Entry), e ∈ extractLoopF env su fuel rows →
      ∃ r det, e = buildEntry env su r det := by
  intro fuel
  induction fuel with
  | zero =>
    intro rows e he
    exact absurd he (List.not_mem_nil e)
  | succ f ih =>
    intro rows e he
    cases rows with
    | nil => exact absurd he (List.not_mem_nil e)
    | cons r1 rest =>
      simp only [extractLoopF] at he
      by_cases h4 : r1.cells.length < 4
      · rw [if_pos h4] at he
        exact ih rest e he
      · rw [if_neg h4] at he
        cases rest with
        | nil =>
          rw [List.mem_singleton] at he
          exact ⟨r1, none, he⟩
        | cons r2 rest2 =>
          dsimp only at he
          cases hcs : hasColspanTd r2 with
          | true =>
            rw [hcs] at he
            rw [if_pos (rfl : true = true)] at he
            rcases List.mem_cons.mp he with he | he
            · exact ⟨r1, some r2, he⟩
            · exact ih rest2 e he
          | false =>
            rw [hcs] at he
            rw [if_neg Bool.false_ne_true] at he
            rcases List.mem_cons.mp he with he | he
            · exact ⟨r1, none, he⟩
            · exact ih (r2 :: rest2) e he

/-- The decision parse never populates both dates. -/
lemma decision_parse_excl (t : List Char) :
    (decision_parse t).2.1 = none ∨ (decision_parse t).2.2 = none := by
  unfold decision_parse
  cases hsr : reSearch statusMatch t with
  | none => exact Or.inl rfl
  | some st =>
    dsimp only
    by_cases h1 : lowerStr ⟨st⟩ = "accepted"
    · rw [if_pos h1]
      exact Or.inr rfl
    · rw [if_neg h1]
      by_cases h2 : lowerStr ⟨st⟩ = "rejected"
      · rw [if_pos h2]
        exact Or.inl rfl
      · rw [if_neg h2]
        exact Or.inl rfl

/-- The definition-list scan only answers with non-empty text. -/
lemma scanDts_ne_empty : ∀ (l : List DtEntry) (t : String), scanDts l = some t → t ≠ "" := by
  intro l
  induction l with
  | nil =>
    intro t h
    exact absurd h (by simp [scanDts])
  | cons d rest ih =>
    intro t h
    unfold scanDts at h
    cases hlb : labelIsNotes (lowerStr d.label) with
    | false =>
      rw [hlb] at h
      rw [if_neg Bool.false_ne_true] at h
      exact ih t h
    | true =>
      rw [hlb] at h
      rw [if_pos (rfl : true = true)] at h
      cases hdd : d.dd with
      | none =>
        rw [hdd] at h
        exact ih t h
      | some txt =>
        rw [hdd] at h
        dsimp only at h
        by_cases ht : txt = ""
        · rw [if_pos ht] at h
          exact ih t h
        · rw [if_neg ht] at h
          rw [Option.some.injEq] at h
          rw [← h]
          exact ht

/-- The detail-page comment lookup only answers with non-empty text. -/
lemma extract_comments_ne_empty (env : Env) (u t : String)
    (h : extract_comments_from_result_page env u = some t) : t ≠ "" := by
  unfold extract_comments_from_result_page at h
  cases hf : env.fetchUrl u with
  | none =>
    rw [hf] at h
    exact absurd h (by simp)
  | some html =>
    rw [hf] at h
    dsimp only at h
    by_cases hh : html = ""
    · rw [if_pos hh] at h
      exact absurd h (by simp)
    · rw [if_neg hh] at h
      exact scanDts_ne_empty _ t h

/-- A populated comment field comes either from the row-two fallback or
verbatim from a detail-page lookup. -/
lemma commentsOf_cases (env : Env) (fallback link : Option String) (c : String)
    (h : commentsOf env fallback link = some c) :
    fallback = some c ∨ ∃ u, extract_comments_from_result_page env u = some c := by
  unfold commentsOf at h
  cases link with
  | none => exact Or.inl h
  | some l =>
    dsimp only at h
    by_cases hl : l = ""
    · rw [if_pos hl] at h
      exact Or.inl h
    · rw [if_neg hl] at h
      cases hrich : extract_comments_from_result_page env l with
      | none =>
        rw [hrich] at h
        exact Or.inl h
      | some rich =>
        rw [hrich] at h
        dsimp only at h
        by_cases hre : rich = ""
        · rw [if_pos hre] at h
          exact Or.inl h
        · rw [if_neg hre] at h
          rw [Option.some.injEq] at h
          right
          exact ⟨l, by rw [hrich, h]⟩

/-! ## Claim theorems: the Entry Parser -/

/-- C7: no entry the Entry Parser produces has both the accepted date and
the rejected date populated. -/
theorem decision_dates_exclusive (env : Env) (html su : String) (e : Entry)
    (he : e ∈ extract_entries_from_page env html su) :
    e.accepted_date = none ∨ e.rejected_date = none := by
  unfold extract_entries_from_page at he
  cases hrows : env.htmlRows html with
  | none =>
    rw [hrows] at he
    exact absurd he (List.not_mem_nil e)
  | some rows =>
    rw [hrows] at he
    dsimp only at he
    obtain ⟨r, det, rfl⟩ := mem_extractLoopF env su (rows.drop 1).length (rows.drop 1) e he
    exact decision_parse_excl (decisionTextOf r).data

/-- Witness for the date exclusivity on a concrete accepted entry. -/
theorem decision_dates_exclusive_w :
    (buildEntry cEnvMain "u" cRow1 none).accepted_date = none ∨
    (buildEntry cEnvMain "u" cRow1 none).rejected_date = none :=
  decision_dates_exclusive cEnvMain "P" "u" (buildEntry cEnvMain "u" cRow1 none)
    (by
      have h1 : extract_entries_from_page cEnvMain "P" "u" =
          [buildEntry cEnvMain "u" cRow1 none] := by decide
      rw [h1]
      exact List.mem_singleton_self _)

/-- C5: after the header, a primary row followed by a colspan row is
consumed together with it into one entry carrying the row-two
extractions, while a primary row whose follower has no colspan cell is
consumed alone, the follower is reconsidered, and the entry has all six
detail fields absent. -/
theorem row_pairing (env : Env) (html su : String) (hd r1 r2 : Row) (rest : List Row)
    (hrows : env.htmlRows html = some (hd :: r1 :: r2 :: rest))
    (h4 : 4 ≤ r1.cells.length) :
    (hasColspanTd r2 = true →
      extract_entries_from_page env html su =
        buildEntry env su r1 (some r2) :: extractLoop env su rest ∧
      (buildEntry env su r1 (some r2)).start_term = termOf r2.fullText ∧
      (buildEntry env su r1 (some r2)).citizenship = citizenshipOf r2.fullText ∧
      (buildEntry env su r1 (some r2)).gpa = gpaOf r2.fullText ∧
      (buildEntry env su r1 (some r2)).gre_score = greOf r2.fullText ∧
      (buildEntry env su r1 (some r2)).gre_v = greVOf r2.fullText ∧
      (buildEntry env su r1 (some r2)).gre_aw = greAwOf r2.fullText) ∧
    (hasColspanTd r2 = false →
      extract_entries_from_page env html su =
        buildEntry env su r1 none :: extractLoop env su (r2 :: rest) ∧
      (buildEntry env su r1 none).start_term = none ∧
      (buildEntry env su r1 none).citizenship = none ∧
      (buildEntry env su r1 none).gpa = none ∧
      (buildEntry env su r1 none).gre_score = none ∧
      (buildEntry env su r1 none).gre_v = none ∧
      (buildEntry env su r1 none).gre_aw = none) := by
  have hmain : extract_entries_from_page env html su = extractLoop env su (r1 :: r2 :: rest) := by
    unfold extract_entries_from_page
    rw [hrows]
    rfl
  constructor
  · intro hcs
    refine ⟨?_, rfl, rfl, rfl, rfl, rfl, rfl⟩
    rw [hmain]
    exact extractLoop_cons_pair env su r1 r2 rest (by omega) hcs
  · intro hcs
    refine ⟨?_, rfl, rfl, rfl, rfl, rfl, rfl⟩
    rw [hmain]
    exact extractLoop_cons_nopair env su r1 r2 rest (by omega) hcs

/-- Witness for the row pairing on two concrete tables. -/
theorem row_pairing_w :
    extract_entries_from_page cEnvMain "H" "u" =
      buildEntry cEnvMain "u" cRow1 (some cRow2) :: extractLoop cEnvMain "u" [] ∧
    extract_entries_from_page cEnvMain "H2" "u" =
      buildEntry cEnvMain "u" cRow1 none :: extractLoop cEnvMain "u" [cRow3] := by
  constructor
  · exact ((row_pairing cEnvMain "H" "u" cHeader cRow1 cRow2 [] (by decide) (by decide)).1
      (by decide)).1
  · exact ((row_pairing cEnvMain "H2" "u" cHeader cRow1 cRow3 [] (by decide) (by decide)).2
      (by decide)).1

/-- C1 (amended): a populated comment field is never empty; it honours the
500-character bound whenever it came from the row-two fallback, while a
detail-page override is carried verbatim. -/
theorem comments_once_populated (env : Env) (html su : String) (e : Entry) (c : String)
    (he : e ∈ extract_entries_from_page env html su) (hc : e.comments = some c) :
    c ≠ "" ∧ (c.length ≤ 500 ∨ ∃ u, extract_comments_from_result_page env u = some c) := by
  unfold extract_entries_from_page at he
  cases hrows : env.htmlRows html with
  | none =>
    rw [hrows] at he
    exact absurd he (List.not_mem_nil e)
  | some rows =>
    rw [hrows] at he
    dsimp only at he
    obtain ⟨r, det, rfl⟩ := mem_extractLoopF env su (rows.drop 1).length (rows.drop 1) e he
    have hc' : commentsOf env (detailOf det).comments (resultLinkOf env su r) = some c := hc
    rcases commentsOf_cases env _ _ c hc' with hfb | hdet
    · cases det with
      | none => exact absurd hfb (by simp [detailOf, emptyDetailFields])
      | some r2 =>
        have hcc : clean_comment_text r2.fullText = some c := hfb
        obtain ⟨hne, hlen⟩ := clean_comment_some_bounds _ c hcc
        exact ⟨hne, Or.inl hlen⟩
    · obtain ⟨u, hu⟩ := hdet
      exact ⟨extract_comments_ne_empty env u c hu, Or.inr ⟨u, hu⟩⟩

/-- Witness for the comment invariant on a concrete fallback comment. -/
theorem comments_once_populated_w :
    "Good program overall, faculty kind" ≠ "" ∧
    (String.length "Good program overall, faculty kind" ≤ 500 ∨
      ∃ u, extract_comments_from_result_page cEnvMain u =
        some "Good program overall, faculty kind") :=
  comments_once_populated cEnvMain "H" "u"
    (buildEntry cEnvMain "u" cRow1 (some cRow2))
    "Good program overall, faculty kind"
    (by
      have h1 : extract_entries_from_page cEnvMain "H" "u" =
          [buildEntry cEnvMain "u" cRow1 (some cRow2)] := by decide
      rw [h1]
      exact List.mem_singleton_self _)
    (by decide)

/-- C1 counterexample: a detail-page override populates the comment field
with a bare punctuation character, and the row-two fallback itself can
emit 500 punctuation characters once truncation cuts the text, so the
claimed invariant fails as stated. -/
theorem comments_detail_override_cex :
    (extract_entries_from_page cEnvC1 "L" "http://s/").map Entry.comments = [some "."] ∧
    ".".data.all isPunctSpace = true ∧
    clean_comment_text cexLong = some cexDots ∧
    cexDots.data.all isPunctSpace = true ∧
    cexDots.length = 500 := by
  refine ⟨by decide, by decide, by decide, by decide, by decide⟩

/-! ## Claim theorems: the Pagination Drivers -/

/-- C2 (amended): the page-number driver of module_4 stops on a failed
fetch, on an empty body, and on a page yielding no entries, returning the
entries accumulated so far; the link-list driver of module_2 instead
skips such a link and continues with the remaining links. -/
theorem pagination_stop_conditions :
    (∀ (env : Env) (base : String) (limit : Nat) (res : List Entry) (p f : Nat),
      res.length < limit → env.fetchUrl (pageUrl4 env base p) = none →
      scrape4Loop env base limit (f + 1) res p = res) ∧
    (∀ (env : Env) (base : String) (limit : Nat) (res : List Entry) (p f : Nat),
      res.length < limit → env.fetchUrl (pageUrl4 env base p) = some "" →
      scrape4Loop env base limit (f + 1) res p = res) ∧
    (∀ (env : Env) (base : String) (limit : Nat) (res : List Entry) (p f : Nat) (html : String),
      res.length < limit → env.fetchUrl (pageUrl4 env base p) = some html → html ≠ "" →
      extract_entries_from_page env html (pageUrl4 env base p) = [] →
      scrape4Loop env base limit (f + 1) res p = res) ∧
    (∀ (env : Env) (limit : Nat) (res : List Entry) (link : String) (rest : List String),
      res.length < limit → env.fetchUrl link = none →
      scrape2Loop env limit (link :: rest) res = scrape2Loop env limit rest res) := by
  refine ⟨?_, ?_, ?_, ?_⟩
  · intro env base limit res p f hlt hf
    simp only [scrape4Loop]
    rw [if_neg (by omega : ¬ limit ≤ res.length)]
    rw [hf]
  · intro env base limit res p f hlt hf
    simp only [scrape4Loop]
    rw [if_neg (by omega : ¬ limit ≤ res.length)]
    rw [hf]
    dsimp only
    rw [if_pos rfl]
  · intro env base limit res p f html hlt hf hne hemp
    simp only [scrape4Loop]
    rw [if_neg (by omega : ¬ limit ≤ res.length)]
    rw [hf]
    dsimp only
    rw [if_neg hne]
    rw [if_pos hemp]
  · intro env limit res link rest hlt hf
    simp only [scrape2Loop]
    rw [if_neg (by omega : ¬ limit ≤ res.length)]
    rw [hf]

/-- Witness for the four stop and skip behaviours at concrete sources. -/
theorem pagination_stop_conditions_w :
    scrape4Loop cEnvM4 "B" 5 1 [] 1 = [] ∧
    scrape4Loop cEnvM4 "D" 5 1 [] 1 = [] ∧
    scrape4Loop cEnvM4 "C" 5 1 [] 1 = [] ∧
    scrape2Loop cEnvC2 5 ["B/survey/"] [] = scrape2Loop cEnvC2 5 [] [] := by
  refine ⟨?_, ?_, ?_, ?_⟩
  · exact pagination_stop_conditions.1 cEnvM4 "B" 5 [] 1 0 (by decide) (by decide)
  · exact pagination_stop_conditions.2.1 cEnvM4 "D" 5 [] 1 0 (by decide) (by decide)
  · exact pagination_stop_conditions.2.2.1 cEnvM4 "C" 5 [] 1 0 "E" (by decide) (by decide)
      (by decide) (by decide)
  · exact pagination_stop_conditions.2.2.2 cEnvC2 5 [] "B/survey/" [] (by decide) (by decide)

/-- C2 counterexample: in the module_2 driver a failed listing fetch does
not stop the run: the first discovered survey link fails to fetch, yet
the run continues to the next link and returns the entry found there. -/
theorem pagination_skip_cex :
    cEnvC2.fetchUrl "B/survey/" = none ∧
    find_post_links cEnvC2 "IDX" "B" = ["B/survey/", "B/survey/?page=2"] ∧
    (scrape_data_m2 cEnvC2 "B" 5).length = 1 := by
  refine ⟨by decide, by decide, by decide⟩

/-- With enough fuel, enough good pages ahead, and enough supply, the
module_4 loop fills the result exactly to the limit. -/
lemma scrape4Loop_reaches (env : Env) (base : String) (limit : Nat) :
    ∀ (f : Nat) (res : List Entry) (p k : Nat),
      res.length ≤ limit → limit + 1 ≤ res.length + f →
      goodRun env base p k = true → limit ≤ res.length + supply env base p k →
      (scrape4Loop env base limit f res p).length = limit := by
  intro f
  induction f with
  | zero =>
    intro res p k h1 h2 _ _
    exfalso
    omega
  | succ f ih =>
    intro res p k h1 h2 hgood hsup
    simp only [scrape4Loop]
    by_cases hl : limit ≤ res.length
    · rw [if_pos hl]
      omega
    · rw [if_neg hl]
      cases k with
      | zero =>
        exfalso
        have hz : supply env base p 0 = 0 := rfl
        omega
      | succ k0 =>
        simp only [goodRun] at hgood
        rw [Bool.and_eq_true] at hgood
        obtain ⟨hpage, hrest⟩ := hgood
        cases hf : env.fetchUrl (pageUrl4 env base p) with
        | none =>
          rw [hf] at hpage
          dsimp only at hpage
          exact absurd hpage (by decide)
        | some html =>
          rw [hf] at hpage
          dsimp only at hpage
          rw [Bool.and_eq_true] at hpage
          obtain ⟨hne, hentne⟩ := hpage
          have hne' : ¬ html = "" := by
            intro hh
            rw [hh] at hne
            exact absurd hne (by decide)
          have hentne' : ¬ extract_entries_from_page env html (pageUrl4 env base p) = [] := by
            intro hh
            rw [hh] at hentne
            exact absurd hentne (by decide)
          dsimp only
          rw [if_neg hne', if_neg hentne']
          have hatl : entriesAt env base p =
              extract_entries_from_page env html (pageUrl4 env base p) := by
            unfold entriesAt
            rw [hf]
            dsimp only
            rw [if_neg hne']
          have hsupply : supply env base p (k0 + 1) =
              (entriesAt env base p).length + supply env base (p + 1) k0 := rfl
          have hpos : 0 < (extract_entries_from_page env html (pageUrl4 env base p)).length :=
            List.length_pos.mpr hentne'
          apply ih
          · rw [List.length_append, List.length_take]
            omega
          · rw [List.length_append, List.length_take]
            omega
          · exact hrest
          · rw [List.length_append, List.length_take]
            rw [hsupply, hatl] at hsup
            omega

/-- The module_2 loop collects the smaller of the limit and the total
page supply of the remaining links. -/
lemma scrape2Loop_len (env : Env) (limit : Nat) :
    ∀ (links : List String) (res : List Entry), res.length ≤ limit →
      (scrape2Loop env limit links res).length = min limit (res.length + avail2 env links) := by
  intro links
  induction links with
  | nil =>
    intro res h
    simp only [scrape2Loop, avail2]
    omega
  | cons link rest ih =>
    intro res h
    simp only [scrape2Loop, avail2]
    by_cases hl : limit ≤ res.length
    · rw [if_pos hl]
      omega
    · rw [if_neg hl]
      cases hf : env.fetchUrl link with
      | none =>
        dsimp only
        rw [ih res h]
        omega
      | some h2 =>
        dsimp only
        by_cases hh : h2 = ""
        · rw [if_pos hh, if_pos hh]
          rw [ih res h]
          omega
        · rw [if_neg hh, if_neg hh]
          rw [ih (res ++ (extract_entries_from_page env h2 link).take (limit - res.length))
            (by rw [List.length_append, List.length_take]; omega)]
          rw [List.length_append, List.length_take]
          omega

/-- C6: both Pagination Drivers return exactly the requested number of
entries when the source holds at least that many: the page-number driver
under a run of good pages supplying at least the limit, and the link-list
driver when its discovered links supply at least the limit. -/
theorem limit_truncation :
    (∀ (env : Env) (base : String) (limit k : Nat),
      goodRun env base 1 k = true → limit ≤ supply env base 1 k →
      (scrape_data_m4 env base limit).length = limit) ∧
    (∀ (env : Env) (base : String) (limit : Nat) (html : String),
      env.fetchUrl base = some html → html ≠ "" →
      limit ≤ avail2 env (find_post_links env html base) →
      (scrape_data_m2 env base limit).length = limit) := by
  constructor
  · intro env base limit k hg hs
    unfold scrape_data_m4
    apply scrape4Loop_reaches env base limit (limit + 1) [] 1 k
    · simp
    · simp
    · exact hg
    · simpa using hs
  · intro env base limit html hf hne hav
    unfold scrape_data_m2
    rw [hf]
    dsimp only
    rw [if_neg hne]
    rw [scrape2Loop_len env limit (find_post_links env html base) [] (by simp)]
    simp only [List.length_nil]
    omega

/-- Witness for the exact truncation at limit two on a concrete source
holding three entries across two pages. -/
theorem limit_truncation_w :
    (scrape_data_m4 cEnvM6 "B" 2).length = 2 ∧
    (scrape_data_m2 cEnvM6 "B" 2).length = 2 := by
  constructor
  · exact limit_truncation.1 cEnvM6 "B" 2 1 (by decide) (by decide)
  · exact limit_truncation.2 cEnvM6 "B" 2 "IDX" (by decide) (by decide) (by decide)
